import Mathlib

/-!
Verification of the auction-site scraper (`scraper.py`).

The development shallowly embeds the program: Python values appear as
`PyVal`, exceptions as `Except PyErr`, dictionaries holding listings and
stored records as structures of (optional) `PyVal` fields, the network
transport as an abstract `crawl` function, and the on-disk dataset files
as an explicit association list threaded through the functions.  Each
definition is translated from the corresponding function of `scraper.py`
(line references in the doc comments).
-/

deriving instance DecidableEq for Except

namespace AuctionScraper

/-- The Python exception kinds that the embedded code can raise. -/
inductive PyErr where
  | valueError
  | overflowError
  | indexError
  | connectionError
  deriving DecidableEq

/-- Python values appearing in listing records: `None`, strings, integers. -/
inductive PyVal where
  | none : PyVal
  | str : String → PyVal
  | int : Int → PyVal
  deriving DecidableEq

/-- Python truthiness for the values of `PyVal`. -/
def pyTruthy : PyVal → Bool
  | .none => false
  | .str s => if s = "" then false else true
  | .int n => if n = 0 then false else true

/-- Python `str(v)` for the values of `PyVal` (used by f-string interpolation). -/
def pyStr : PyVal → String
  | .none => "None"
  | .str s => s
  | .int n => toString n

/-- Python `a or b` on values: the first operand if truthy, else the second. -/
def pyOr (a b : PyVal) : PyVal := if pyTruthy a then a else b

/-! ## Calendar arithmetic (proleptic Gregorian, as used by `datetime`) -/

/-- Gregorian leap-year test. -/
def isLeap (y : Nat) : Bool :=
  if y % 4 = 0 then (if y % 100 = 0 then (if y % 400 = 0 then true else false) else true)
  else false

/-- Number of days of month `m` in year `y`. -/
def daysInMonth (y m : Nat) : Nat :=
  if m = 2 then (if isLeap y then 29 else 28)
  else if m = 4 ∨ m = 6 ∨ m = 9 ∨ m = 11 then 30
  else 31

/-- Days in year `y` before the first day of month `m`. -/
def daysBeforeMonth (y m : Nat) : Nat :=
  ((List.range (m - 1)).map (fun i => daysInMonth y (i + 1))).sum

/-- Rata-die day number of a Gregorian date: `0001-01-01` is day `1`.
(`datetime.toordinal` in Python.) -/
def toRataDie (y m d : Nat) : Int :=
  365 * ((y : Int) - 1) + ((y : Int) - 1) / 4 - ((y : Int) - 1) / 100
    + ((y : Int) - 1) / 400 + (daysBeforeMonth y m : Int) + (d : Int)

/-- Inverse of `toRataDie` on positive day numbers (standard
era-decomposition algorithm for the proleptic Gregorian calendar). -/
def fromRataDie (n : Nat) : Nat × Nat × Nat :=
  let doe0 := n + 305
  let era := doe0 / 146097
  let doe := doe0 % 146097
  let yoe := (doe - doe / 1460 + doe / 36524 - doe / 146096) / 365
  let y0 := yoe + era * 400
  let doy := doe - (365 * yoe + yoe / 4 - yoe / 100)
  let mp := (5 * doy + 2) / 153
  let d := doy - (153 * mp + 2) / 5 + 1
  let m := if mp < 10 then mp + 3 else mp - 9
  (if m ≤ 2 then y0 + 1 else y0, m, d)

/-- Rata-die day number of `9999-12-31`, the last representable `datetime` day. -/
def maxRataDie : Int := 3652059

/-- Zero-pad a number to two digits. -/
def pad2 (n : Nat) : String := if n < 10 then "0" ++ toString n else toString n

/-- Zero-pad a year to four digits. -/
def pad4 (n : Nat) : String :=
  if n < 10 then "000" ++ toString n
  else if n < 100 then "00" ++ toString n
  else if n < 1000 then "0" ++ toString n
  else toString n

/-- `date.isoformat()`: format a date as `YYYY-MM-DD`. -/
def fmtDate (y m d : Nat) : String := pad4 y ++ "-" ++ pad2 m ++ "-" ++ pad2 d

/-! ## `datetime.fromisoformat` -/

/-- A parsed `datetime`: date, time, and optional UTC offset in seconds. -/
structure PyDateTime where
  year : Nat
  month : Nat
  day : Nat
  hour : Nat
  minute : Nat
  second : Nat
  off : Option Int
  deriving DecidableEq

/-- Value of a decimal digit character, if any. -/
def digit? (c : Char) : Option Nat :=
  if c.isDigit then some (c.toNat - 48) else Option.none

/-- Parse exactly two decimal digits. -/
def parse2 : List Char → Option (Nat × List Char)
  | c1 :: c2 :: rest =>
    match digit? c1, digit? c2 with
    | some a, some b => some (10 * a + b, rest)
    | _, _ => Option.none
  | _ => Option.none

/-- Parse exactly four decimal digits. -/
def parse4 : List Char → Option (Nat × List Char)
  | c1 :: c2 :: c3 :: c4 :: rest =>
    match digit? c1, digit? c2, digit? c3, digit? c4 with
    | some a, some b, some c, some d => some (1000 * a + 100 * b + 10 * c + d, rest)
    | _, _, _, _ => Option.none
  | _ => Option.none

/-- Consume one expected character. -/
def expectChar (ch : Char) : List Char → Option (List Char)
  | c :: rest => if c = ch then some rest else Option.none
  | [] => Option.none

/-- Consume a fractional-second field: one to six digits. -/
def parseFrac (cs : List Char) : Option (List Char) :=
  let digs := cs.takeWhile (fun c => c.isDigit)
  if digs.length = 0 ∨ digs.length > 6 then Option.none
  else some (cs.drop digs.length)

/-- Parse an optional UTC offset `±HH:MM[:SS]`; empty input means no offset. -/
def parseOffset : List Char → Option (Option Int × List Char)
  | [] => some (Option.none, [])
  | c :: rest =>
    if c = '+' ∨ c = '-' then
      let sign : Int := if c = '-' then -1 else 1
      match parse2 rest with
      | some (oh, r1) =>
        match expectChar ':' r1 with
        | some r2 =>
          match parse2 r2 with
          | some (om, r3) =>
            match expectChar ':' r3 with
            | some r4 =>
              match parse2 r4 with
              | some (os, r5) =>
                if oh ≤ 23 ∧ om ≤ 59 ∧ os ≤ 59 then
                  some (some (sign * (oh * 3600 + om * 60 + os)), r5)
                else Option.none
              | Option.none => Option.none
            | Option.none =>
              if oh ≤ 23 ∧ om ≤ 59 then
                some (some (sign * (oh * 3600 + om * 60)), r3)
              else Option.none
          | Option.none => Option.none
        | Option.none => Option.none
      | Option.none => Option.none
    else Option.none

/-- Parse the time-and-offset part `HH[:MM[:SS[.ffffff]]][±HH:MM[:SS]]`;
the whole remainder must be consumed. -/
def parseTime (cs : List Char) : Option ((Nat × Nat × Nat) × Option Int) :=
  match parse2 cs with
  | Option.none => Option.none
  | some (hh, r1) =>
    match expectChar ':' r1 with
    | Option.none =>
      match parseOffset r1 with
      | some (off, r2) =>
        if r2 = [] ∧ hh ≤ 23 then some ((hh, 0, 0), off) else Option.none
      | Option.none => Option.none
    | some r2 =>
      match parse2 r2 with
      | Option.none => Option.none
      | some (mm, r3) =>
        match expectChar ':' r3 with
        | Option.none =>
          match parseOffset r3 with
          | some (off, r4) =>
            if r4 = [] ∧ hh ≤ 23 ∧ mm ≤ 59 then some ((hh, mm, 0), off) else Option.none
          | Option.none => Option.none
        | some r4 =>
          match parse2 r4 with
          | Option.none => Option.none
          | some (ss, r5) =>
            match (match r5 with
                   | '.' :: r => parseFrac r
                   | _ => some r5) with
            | Option.none => Option.none
            | some r6 =>
              match parseOffset r6 with
              | some (off, r7) =>
                if r7 = [] ∧ hh ≤ 23 ∧ mm ≤ 59 ∧ ss ≤ 59 then
                  some ((hh, mm, ss), off)
                else Option.none
              | Option.none => Option.none

/-- `datetime.fromisoformat`: parse `YYYY-MM-DD[{T, }HH[:MM[:SS[.ffffff]]][±HH:MM[:SS]]]`,
validating all calendar and clock ranges (year 1–9999). -/
def fromisoformat (s : String) : Option PyDateTime :=
  match parse4 s.data with
  | Option.none => Option.none
  | some (y, r1) =>
    match expectChar '-' r1 with
    | Option.none => Option.none
    | some r2 =>
      match parse2 r2 with
      | Option.none => Option.none
      | some (mo, r3) =>
        match expectChar '-' r3 with
        | Option.none => Option.none
        | some r4 =>
          match parse2 r4 with
          | Option.none => Option.none
          | some (d, r5) =>
            if 1 ≤ y ∧ 1 ≤ mo ∧ mo ≤ 12 ∧ 1 ≤ d ∧ d ≤ daysInMonth y mo then
              match r5 with
              | [] => some ⟨y, mo, d, 0, 0, 0, Option.none⟩
              | c :: rest =>
                if c = 'T' ∨ c = ' ' then
                  match parseTime rest with
                  | some ((hh, mm, ss), off) => some ⟨y, mo, d, hh, mm, ss, off⟩
                  | Option.none => Option.none
                else Option.none
            else Option.none

/-- `fromisoformat` with Python's exception behaviour: `ValueError` on failure. -/
def fromisoformatE (s : String) : Except PyErr PyDateTime :=
  match fromisoformat s with
  | some dt => .ok dt
  | Option.none => .error .valueError

/-! ## `iso_to_date_str` (scraper.py lines 13–35) -/

/-- Python whitespace stripped by `str.strip()` (ASCII subset). -/
def isPySpace (c : Char) : Bool :=
  c = ' ' ∨ c = '\t' ∨ c = '\n' ∨ c = '\r' ∨ c = '\x0b' ∨ c = '\x0c'

/-- `s.strip()`. -/
def pyStrip (s : String) : String :=
  String.mk (((s.data.dropWhile isPySpace).reverse.dropWhile isPySpace).reverse)

/-- `s.replace("Z", "+00:00")`: every `'Z'` becomes `"+00:00"`. -/
def replaceZ (s : String) : String :=
  String.mk ((s.data.map (fun c => if c = 'Z' then "+00:00".data else [c])).flatten)

/-- `s.split("T", 1)[0]`: the prefix of `s` before the first `'T'`. -/
def splitHeadT (s : String) : String :=
  String.mk (s.data.takeWhile (fun c => c ≠ 'T'))

/-- Lines 25–28 followed by `.date()`: if an offset is present, convert the
date-time to UTC (`astimezone`), which raises `OverflowError` when the result
leaves the supported `datetime` range; if no offset is present the timestamp
is taken as already being UTC and the date is used unchanged. -/
def utcDateE (dt : PyDateTime) : Except PyErr (Nat × Nat × Nat) :=
  match dt.off with
  | Option.none => .ok (dt.year, dt.month, dt.day)
  | some o =>
    let t : Int := toRataDie dt.year dt.month dt.day * 86400
        + ((dt.hour * 3600 + dt.minute * 60 + dt.second : Nat) : Int) - o
    let day : Int := Int.ediv t 86400
    if 1 ≤ day ∧ day ≤ maxRataDie then .ok (fromRataDie day.toNat)
    else .error .overflowError

/-- Lines 25–29: UTC conversion followed by `dt.date().isoformat()`. -/
def utcDateStrE (dt : PyDateTime) : Except PyErr String :=
  match utcDateE dt with
  | .ok (y, m, d) => .ok (fmtDate y m d)
  | .error e => .error e

/-- `iso_to_date_str` (lines 13–35), with the exception flow made explicit:
non-strings and falsy values yield `None`; then the body tries
`fromisoformat` on the `Z`-normalised stripped string followed by the UTC
conversion, and on any exception falls back to the substring before the
first `'T'` (that fallback itself cannot raise).  The result is
`Except.ok` on every path: the function never lets an exception escape. -/
def iso_to_date_str_ex (v : PyVal) : Except PyErr (Option String) :=
  match v with
  | .str s0 =>
    if s0 = "" then .ok Option.none
    else
      let s := pyStrip s0
      match (match fromisoformatE (replaceZ s) with
             | .ok dt => utcDateStrE dt
             | .error e => .error e) with
      | .ok ds => .ok (some ds)
      | .error _ => .ok (some (splitHeadT s))
  | _ => .ok Option.none

/-- The value computed by `iso_to_date_str` (the `.error` branch is
unreachable, see `iso_to_date_str_ex_ok`). -/
def iso_to_date_str (v : PyVal) : Option String :=
  match iso_to_date_str_ex v with
  | .ok r => r
  | .error _ => Option.none

/-! ## Listings and `pick_sold_date` (lines 37–50) -/

/-- The nested `auction` object of a listing. -/
structure Auction where
  title : PyVal
  effective_end_time : PyVal
  deriving DecidableEq

/-- A raw listing, with every field the scraper reads via `.get`; an absent
dictionary key is `PyVal.none`, matching `dict.get`'s default. -/
structure Lot where
  row_id : PyVal
  title : PyVal
  status : PyVal
  sold_price : PyVal
  extended_end_time : PyVal
  last_updated : PyVal
  auction : Option Auction
  deriving DecidableEq

/-- `lot.get("auction") or {}`: a missing auction behaves as an empty dict. -/
def lotAuction (lot : Lot) : Auction := lot.auction.getD ⟨PyVal.none, PyVal.none⟩

/-- Line 45–49: the prioritised timestamp
`extended_end_time or auction.effective_end_time or last_updated`. -/
def pickSoldTimestamp (lot : Lot) : PyVal :=
  pyOr lot.extended_end_time (pyOr (lotAuction lot).effective_end_time lot.last_updated)

/-- `pick_sold_date` (lines 37–50): `iso_to_date_str(t) if t else None`. -/
def pick_sold_date (lot : Lot) : Option String :=
  if pyTruthy (pickSoldTimestamp lot) then iso_to_date_str (pickSoldTimestamp lot)
  else Option.none

/-! ## The canonical payload and stored records (lines 88–123) -/

/-- The upsert payload built at lines 99–108; all seven keys are present. -/
structure Payload where
  row_id : PyVal
  title : PyVal
  status : PyVal
  sold_price : PyVal
  url : PyVal
  sold_date : PyVal
  auction_title : PyVal
  deriving DecidableEq

/-- A `str`-or-`None` Python value from an optional string. -/
def optStrToPy : Option String → PyVal
  | some s => .str s
  | Option.none => .none

/-- Lines 99–108: the candidate payload for one listing. -/
def mkPayload (base : String) (lot : Lot) : Payload :=
  { row_id := lot.row_id
    title := lot.title
    status := lot.status
    sold_price := lot.sold_price
    url := .str (base ++ "/lots/view/" ++ pyStr lot.row_id)
    sold_date := optStrToPy (pick_sold_date lot)
    auction_title := (lotAuction lot).title }

/-- A stored record: a dict whose seven canonical keys may each be absent
(`Option.none`) or present with a value (possibly `PyVal.none`). -/
structure Row where
  row_id : Option PyVal
  title : Option PyVal
  status : Option PyVal
  sold_price : Option PyVal
  url : Option PyVal
  sold_date : Option PyVal
  auction_title : Option PyVal
  deriving DecidableEq

/-- The record a freshly appended payload becomes (line 121): all keys present. -/
def payloadToRow (p : Payload) : Row :=
  ⟨some p.row_id, some p.title, some p.status, some p.sold_price,
   some p.url, some p.sold_date, some p.auction_title⟩

/-- Names of the seven canonical fields, in the payload's key order. -/
inductive Fld where
  | row_id
  | title
  | status
  | sold_price
  | url
  | sold_date
  | auction_title
  deriving DecidableEq

/-- Field access on a stored record. -/
def Row.fget (r : Row) : Fld → Option PyVal
  | .row_id => r.row_id
  | .title => r.title
  | .status => r.status
  | .sold_price => r.sold_price
  | .url => r.url
  | .sold_date => r.sold_date
  | .auction_title => r.auction_title

/-- Line 115: `row.get("sold_date") in (None, "", "null")` — the stored
sold date is absent, `None`, empty, or the literal string `"null"`. -/
def soldBadO : Option PyVal → Bool
  | Option.none => true
  | some .none => true
  | some (.str s) => if s = "" ∨ s = "null" then true else false
  | some (.int _) => false

/-- Loop iteration of lines 114–117 for `k = "row_id"`. -/
def fillRowId (p : Payload) (st : Row × Bool) : Row × Bool :=
  if st.1.row_id.isNone then ({st.1 with row_id := some p.row_id}, true) else st

/-- Loop iteration of lines 114–117 for `k = "title"`. -/
def fillTitle (p : Payload) (st : Row × Bool) : Row × Bool :=
  if st.1.title.isNone then ({st.1 with title := some p.title}, true) else st

/-- Loop iteration of lines 114–117 for `k = "status"`. -/
def fillStatus (p : Payload) (st : Row × Bool) : Row × Bool :=
  if st.1.status.isNone then ({st.1 with status := some p.status}, true) else st

/-- Loop iteration of lines 114–117 for `k = "sold_price"`. -/
def fillSoldPrice (p : Payload) (st : Row × Bool) : Row × Bool :=
  if st.1.sold_price.isNone then ({st.1 with sold_price := some p.sold_price}, true) else st

/-- Loop iteration of lines 114–117 for `k = "url"`. -/
def fillUrl (p : Payload) (st : Row × Bool) : Row × Bool :=
  if st.1.url.isNone then ({st.1 with url := some p.url}, true) else st

/-- Loop iteration of lines 114–117 for `k = "sold_date"`: written when the
key is absent, or the stored value is in `(None, "", "null")` and the
candidate is truthy. -/
def fillSoldDate (p : Payload) (st : Row × Bool) : Row × Bool :=
  if st.1.sold_date.isNone || (soldBadO st.1.sold_date && pyTruthy p.sold_date) then
    ({st.1 with sold_date := some p.sold_date}, true)
  else st

/-- Loop iteration of lines 114–117 for `k = "auction_title"`. -/
def fillAuctionTitle (p : Payload) (st : Row × Bool) : Row × Bool :=
  if st.1.auction_title.isNone then ({st.1 with auction_title := some p.auction_title}, true)
  else st

/-- Lines 112–117: the field-by-field upsert of one payload into an existing
record, iterating the payload keys in dict order (`changed` starts `False`
and records whether any write happened). -/
def upsertRow (row : Row) (p : Payload) : Row × Bool :=
  fillAuctionTitle p (fillSoldDate p (fillUrl p (fillSoldPrice p
    (fillStatus p (fillTitle p (fillRowId p (row, false)))))))

/-- All seven canonical keys are present in the record. -/
def allPresent (r : Row) : Bool :=
  r.row_id.isSome && r.title.isSome && r.status.isSome && r.sold_price.isSome &&
  r.url.isSome && r.sold_date.isSome && r.auction_title.isSome

/-- `row.get("row_id")`, the key under which line 88 indexes a record. -/
def rowKey (r : Row) : PyVal := r.row_id.getD PyVal.none

/-- Some record of the list is indexed under `rid`. -/
def hasKey (rows : List Row) (rid : PyVal) : Bool :=
  rows.any (fun r => decide (rowKey r = rid))

/-- `existing_by_id[rid]` for the index built at line 88: a dict
comprehension keeps the last record with a given key, so this returns the
last matching record. -/
def lookupById : List Row → PyVal → Option Row
  | [], _ => Option.none
  | r :: rs, rid =>
    if hasKey rs rid then lookupById rs rid
    else if rowKey r = rid then some r
    else Option.none

/-- In-place mutation through the index: replace the last record whose key
is `rid` (the object the dict aliases) by `r'`. -/
def updateById : List Row → PyVal → Row → List Row
  | [], _, _ => []
  | r :: rs, rid, r' =>
    if hasKey rs rid then r :: updateById rs rid r'
    else if rowKey r = rid then r' :: rs
    else r :: rs

/-- Lines 92–123: processing of one listing against the state
`(existing, added, updated)`. -/
def mergeStep (base : String) (st : List Row × Nat × Nat) (lot : Lot) :
    List Row × Nat × Nat :=
  if pyTruthy lot.row_id = false then st
  else
    let p := mkPayload base lot
    match lookupById st.1 lot.row_id with
    | some row =>
      let r' := upsertRow row p
      (updateById st.1 lot.row_id r'.1, st.2.1, st.2.2 + (if r'.2 then 1 else 0))
    | Option.none => (st.1 ++ [payloadToRow p], st.2.1 + 1, st.2.2)

/-- The merge loop of `scrape_and_merge` (lines 88–123): fold the filtered
listings over the loaded dataset, returning `(records, added, updated)`. -/
def merge_lots (base : String) (lots : List Lot) (existing : List Row) :
    List Row × Nat × Nat :=
  lots.foldl (mergeStep base) (existing, 0, 0)

/-! ## Files, `scrape_and_merge` (lines 77–128) and `main` (lines 130–139) -/

/-- The relevant file system: parsed dataset files by name. -/
abbrev FS := List (String × List Row)

/-- Lines 83–86: a missing file is an empty dataset. -/
def fsRead (fs : FS) (name : String) : List Row :=
  match fs.find? (fun pr => decide (pr.1 = name)) with
  | some pr => pr.2
  | Option.none => []

/-- Lines 125–126: whole-file rewrite of the dataset. -/
def fsWrite (fs : FS) (name : String) (rows : List Row) : FS :=
  (name, rows) :: fs.filter (fun pr => decide (pr.1 ≠ name))

/-- `scrape_and_merge` (lines 77–128) over an abstract transport `crawl`
(the crawl of one base URL, returning listings or raising): crawl, filter to
sold lots (line 80), load the dataset, merge, and only then write the file.
A crawl exception propagates before anything is written. -/
def scrape_and_merge (crawl : String → Except PyErr (List Lot))
    (base outfile : String) (fs : FS) : FS × Except PyErr (Nat × Nat × Nat) :=
  match crawl base with
  | .error e => (fs, .error e)
  | .ok new_lots =>
    let sold := new_lots.filter (fun l => pyTruthy l.sold_price)
    let existing := fsRead fs outfile
    let res := merge_lots base sold existing
    (fsWrite fs outfile res.1, .ok (res.2.1, res.2.2, res.1.length))

/-- The characters after the first `"//"` of a string, if any. -/
def afterDoubleSlash : List Char → Option (List Char)
  | '/' :: '/' :: rest => some rest
  | _ :: rest => afterDoubleSlash rest
  | [] => Option.none

/-- Lines 137–138: `base.split("//")[1].split("/")[0] + "_lots.json"`;
`IndexError` when the base URL has no `"//"`. -/
def derive_outfile (base : String) : Except PyErr String :=
  match afterDoubleSlash base.data with
  | some rest => .ok (String.mk (rest.takeWhile (fun c => c ≠ '/')) ++ "_lots.json")
  | Option.none => .error .indexError

/-- The orchestration loop of `main` (lines 130–139): process the sources
in order, sequentially; an exception raised for one source propagates out
of the loop.  Returns the final file system, the list of sources whose
iteration was entered, and the escaped exception if any. -/
def main_loop (crawl : String → Except PyErr (List Lot)) :
    List String → FS → FS × List String × Option PyErr
  | [], fs => (fs, [], Option.none)
  | base :: rest, fs =>
    match derive_outfile base with
    | .error e => (fs, [base], some e)
    | .ok outfile =>
      match scrape_and_merge crawl base outfile fs with
      | (fs', .error e) => (fs', [base], some e)
      | (fs', .ok _) =>
        let r := main_loop crawl rest fs'
        (r.1, base :: r.2.1, r.2.2)

/-! ## `fetch_all_lots` (lines 61–75) -/

/-- Line 11. -/
def CONCURRENCY : Nat := 10

/-- Lines 65–66: the page results of one window, in page order (the
transport is abstracted by `pages`, the listings each page returns). -/
def fetchWindow (pages : Nat → List Lot) (page : Nat) : List (List Lot) :=
  (List.range CONCURRENCY).map (fun i => pages (page + i))

/-- Lines 68–71: fold one page's result into `(got_any, all_lots)`. -/
def extendNonEmpty (st : Bool × List Lot) (lots : List Lot) : Bool × List Lot :=
  if lots.isEmpty then st else (true, st.2 ++ lots)

/-- Lines 67–71: process a window's results. -/
def processWindow (acc : List Lot) (results : List (List Lot)) : Bool × List Lot :=
  results.foldl extendNonEmpty (false, acc)

/-- `fetch_all_lots` (lines 61–75) with explicit fuel bounding the number of
windows (the Python loop is unbounded): starting from `page` and accumulator
`acc`, fetch a window; if no page returned listings, stop and return the
accumulator, otherwise extend it and advance by `CONCURRENCY`. -/
def fetch_all_lots (pages : Nat → List Lot) : Nat → Nat → List Lot → Option (List Lot)
  | 0, _, _ => Option.none
  | fuel + 1, page, acc =>
    let res := processWindow acc (fetchWindow pages page)
    if res.1 then fetch_all_lots pages fuel (page + CONCURRENCY) res.2
    else some res.2

/-! ## Invariant definitions and concrete instances -/

/-- Invariant: the record indexed under a listing's `row_id` has all keys
present, and if its stored sold-date still satisfies the backfill test then
the listing's candidate sold-date is falsy. -/
def goodRow (base : String) (rows : List Row) (lot : Lot) : Prop :=
  ∃ r, lookupById rows lot.row_id = some r ∧ allPresent r = true ∧
    (soldBadO r.sold_date = true → pyTruthy (mkPayload base lot).sold_date = false)

/-- A source for which one orchestration iteration completes normally. -/
def sourceOk (crawl : String → Except PyErr (List Lot)) (a : String) : Prop :=
  (∃ o, derive_outfile a = Except.ok o) ∧ (∃ ls, crawl a = Except.ok ls)

/-- Transport that fails on the first of two concrete sources. -/
def crawl1 : String → Except PyErr (List Lot) := fun a =>
  if a = "https://a.example" then Except.error PyErr.connectionError else Except.ok []

/-- Transport that fails on one concrete source and succeeds elsewhere. -/
def crawl1w : String → Except PyErr (List Lot) := fun a =>
  if a = "https://bad.example" then Except.error PyErr.connectionError else Except.ok []

/-- A stored record with the `url` key absent and a real sold date. -/
def row3 : Row :=
  ⟨some (.str "k3"), some .none, some (.str "s"), some (.int 3), Option.none,
   some (.str "2024-01-01"), some .none⟩

/-- A full candidate payload targeting `row3`. -/
def pay3 : Payload :=
  ⟨.str "k3", .str "T", .str "sold", .int 9, .str "u2", .str "2024-09-09", .str "A"⟩

/-- A sold listing whose sold-date candidate normalises to the literal
string `"null"` (its `extended_end_time` is the string `"null"`). -/
def lot4 : Lot :=
  ⟨.str "r1", .none, .none, .int 100, .str "null", .none, Option.none⟩

/-- A sold listing with a well-formed timestamp. -/
def lot4w : Lot :=
  ⟨.str "w1", .str "Item", .str "sold", .int 250, .str "2024-03-01T14:30:00Z", .none,
   Option.none⟩

/-- A sold listing used as page content. -/
def lot5 : Lot :=
  ⟨.str "p1", .none, .none, .int 10, .none, .none, Option.none⟩

/-- Pages: only page 3 returns a listing. -/
def pages5 : Nat → List Lot := fun n => if n = 3 then [lot5] else []

/-- A sold listing with a fresh key. -/
def lot6 : Lot :=
  ⟨.str "k1", .none, .none, .int 10, .none, .none, Option.none⟩

/-- Transport that always fails. -/
def crawl7 : String → Except PyErr (List Lot) := fun _ =>
  Except.error PyErr.connectionError

/-- A stored record with all seven keys present and an unset sold date. -/
def row10 : Row :=
  ⟨some (.str "k10"), some (.str "T"), some .none, some (.int 5), some (.str "u"),
   some .none, some .none⟩

/-- A sold listing carrying updates for `row10`. -/
def lot10 : Lot :=
  ⟨.str "k10", .str "New", .str "s", .int 7, .str "2024-01-02T03:04:05Z", .none, Option.none⟩

/-! ## `iso_to_date_str` never raises -/

/-- `iso_to_date_str` never raises: every branch of the embedded body is a
normal return. -/
theorem iso_to_date_str_ex_ok (v : PyVal) : ∃ r, iso_to_date_str_ex v = Except.ok r := by
  cases v with
  | none => exact ⟨Option.none, rfl⟩
  | int n => exact ⟨Option.none, rfl⟩
  | str s =>
    dsimp only [iso_to_date_str_ex]
    split
    · exact ⟨Option.none, rfl⟩
    · split
      · exact ⟨_, rfl⟩
      · exact ⟨_, rfl⟩

/-- The pure value agrees with the exception-instrumented embedding. -/
theorem iso_to_date_str_eq (v : PyVal) :
    iso_to_date_str_ex v = Except.ok (iso_to_date_str v) := by
  obtain ⟨r, hr⟩ := iso_to_date_str_ex_ok v
  simp [iso_to_date_str, hr]

/-! ## Helper lemmas about the upsert -/

/-- Closed form of the `row_id` iteration. -/
theorem fillRowId_eq (p : Payload) (r : Row) (c : Bool) :
    fillRowId p (r, c) =
      ({r with row_id := if r.row_id.isNone then some p.row_id else r.row_id},
       c || r.row_id.isNone) := by
  cases h : r.row_id <;> simp [fillRowId, h] <;> rw [← h]

/-- Closed form of the `title` iteration. -/
theorem fillTitle_eq (p : Payload) (r : Row) (c : Bool) :
    fillTitle p (r, c) =
      ({r with title := if r.title.isNone then some p.title else r.title},
       c || r.title.isNone) := by
  cases h : r.title <;> simp [fillTitle, h] <;> rw [← h]

/-- Closed form of the `status` iteration. -/
theorem fillStatus_eq (p : Payload) (r : Row) (c : Bool) :
    fillStatus p (r, c) =
      ({r with status := if r.status.isNone then some p.status else r.status},
       c || r.status.isNone) := by
  cases h : r.status <;> simp [fillStatus, h] <;> rw [← h]

/-- Closed form of the `sold_price` iteration. -/
theorem fillSoldPrice_eq (p : Payload) (r : Row) (c : Bool) :
    fillSoldPrice p (r, c) =
      ({r with sold_price := if r.sold_price.isNone then some p.sold_price else r.sold_price},
       c || r.sold_price.isNone) := by
  cases h : r.sold_price <;> simp [fillSoldPrice, h] <;> rw [← h]

/-- Closed form of the `url` iteration. -/
theorem fillUrl_eq (p : Payload) (r : Row) (c : Bool) :
    fillUrl p (r, c) =
      ({r with url := if r.url.isNone then some p.url else r.url},
       c || r.url.isNone) := by
  cases h : r.url <;> simp [fillUrl, h] <;> rw [← h]

/-- Closed form of the `sold_date` iteration. -/
theorem fillSoldDate_eq (p : Payload) (r : Row) (c : Bool) :
    fillSoldDate p (r, c) =
      ({r with sold_date :=
          if r.sold_date.isNone || (soldBadO r.sold_date && pyTruthy p.sold_date) then
            some p.sold_date
          else r.sold_date},
       c || (r.sold_date.isNone || (soldBadO r.sold_date && pyTruthy p.sold_date))) := by
  by_cases hb : (r.sold_date.isNone || (soldBadO r.sold_date && pyTruthy p.sold_date)) = true <;>
    simp [fillSoldDate, hb]

/-- Closed form of the `auction_title` iteration. -/
theorem fillAuctionTitle_eq (p : Payload) (r : Row) (c : Bool) :
    fillAuctionTitle p (r, c) =
      ({r with auction_title :=
          if r.auction_title.isNone then some p.auction_title else r.auction_title},
       c || r.auction_title.isNone) := by
  cases h : r.auction_title <;> simp [fillAuctionTitle, h] <;> rw [← h]

/-- Closed form of `upsertRow`: each loop iteration touches only its own
key, so every write condition is a condition on the incoming record. -/
theorem upsertRow_spec (row : Row) (p : Payload) :
    upsertRow row p =
      ({ row_id := if row.row_id.isNone then some p.row_id else row.row_id
         title := if row.title.isNone then some p.title else row.title
         status := if row.status.isNone then some p.status else row.status
         sold_price := if row.sold_price.isNone then some p.sold_price else row.sold_price
         url := if row.url.isNone then some p.url else row.url
         sold_date :=
           if row.sold_date.isNone || (soldBadO row.sold_date && pyTruthy p.sold_date) then
             some p.sold_date
           else row.sold_date
         auction_title :=
           if row.auction_title.isNone then some p.auction_title else row.auction_title },
       (row.row_id.isNone || (row.title.isNone || (row.status.isNone || (row.sold_price.isNone ||
        (row.url.isNone || ((row.sold_date.isNone ||
          (soldBadO row.sold_date && pyTruthy p.sold_date)) ||
        row.auction_title.isNone))))))) := by
  simp [upsertRow, fillRowId_eq, fillTitle_eq, fillStatus_eq, fillSoldPrice_eq, fillUrl_eq,
    fillSoldDate_eq, fillAuctionTitle_eq, Bool.or_assoc]

/-- The upsert fills every absent key: afterwards all seven are present. -/
theorem upsertRow_allPresent (row : Row) (p : Payload) :
    allPresent (upsertRow row p).1 = true := by
  rw [upsertRow_spec]
  cases hr : row.row_id <;> cases ht : row.title <;> cases hs : row.status <;>
    cases hp : row.sold_price <;> cases hu : row.url <;> cases hd : row.sold_date <;>
    cases ha : row.auction_title <;>
    simp_all [allPresent, apply_ite Option.isSome]

/-- A present non-`sold_date` field keeps its value across the upsert. -/
theorem upsertRow_preserves (row : Row) (p : Payload) :
    (row.row_id.isSome → (upsertRow row p).1.row_id = row.row_id) ∧
    (row.title.isSome → (upsertRow row p).1.title = row.title) ∧
    (row.status.isSome → (upsertRow row p).1.status = row.status) ∧
    (row.sold_price.isSome → (upsertRow row p).1.sold_price = row.sold_price) ∧
    (row.url.isSome → (upsertRow row p).1.url = row.url) ∧
    (row.auction_title.isSome → (upsertRow row p).1.auction_title = row.auction_title) := by
  rw [upsertRow_spec]
  cases hr : row.row_id <;> cases ht : row.title <;> cases hs : row.status <;>
    cases hp : row.sold_price <;> cases hu : row.url <;>
    cases ha : row.auction_title <;> simp_all

/-- The sold-date after the upsert. -/
theorem upsertRow_sold_date (row : Row) (p : Payload) :
    (upsertRow row p).1.sold_date =
      (if row.sold_date.isNone || (soldBadO row.sold_date && pyTruthy p.sold_date) then
        some p.sold_date
      else row.sold_date) := by
  rw [upsertRow_spec]

/-- On a record with all keys present whose sold-date rule does not fire,
the upsert is a no-op and reports no change. -/
theorem upsertRow_noop (row : Row) (p : Payload) (h : allPresent row = true)
    (hsd : (soldBadO row.sold_date && pyTruthy p.sold_date) = false) :
    upsertRow row p = (row, false) := by
  rw [upsertRow_spec]
  simp only [allPresent, Bool.and_eq_true] at h
  obtain ⟨⟨⟨⟨⟨⟨h1, h2⟩, h3⟩, h4⟩, h5⟩, h6⟩, h7⟩ := h
  rw [Option.isSome_iff_exists] at h1 h2 h3 h4 h5 h6 h7
  obtain ⟨v1, e1⟩ := h1
  obtain ⟨v2, e2⟩ := h2
  obtain ⟨v3, e3⟩ := h3
  obtain ⟨v4, e4⟩ := h4
  obtain ⟨v5, e5⟩ := h5
  obtain ⟨v6, e6⟩ := h6
  obtain ⟨v7, e7⟩ := h7
  rw [e6] at hsd
  simp only [e1, e2, e3, e4, e5, e6, e7, Option.isNone_some, Bool.false_or, hsd]
  rw [← e1, ← e2, ← e3, ← e4, ← e5, ← e6, ← e7]
  simp

/-! ## Helper lemmas about the `row_id` index -/

/-- `hasKey` through `map rowKey`. -/
theorem hasKey_eq_map (rows : List Row) (rid : PyVal) :
    hasKey rows rid = (rows.map rowKey).any (fun k => decide (k = rid)) := by
  induction rows with
  | nil => rfl
  | cons r rs ih => simp [hasKey, List.any_cons] at ih ⊢; rw [ih]

/-- The lookup fails exactly when no record has the key. -/
theorem lookupById_eq_none (rows : List Row) (rid : PyVal) :
    lookupById rows rid = Option.none ↔ hasKey rows rid = false := by
  induction rows with
  | nil => exact ⟨fun _ => rfl, fun _ => rfl⟩
  | cons r rs ih =>
    have hcons : hasKey (r :: rs) rid = (decide (rowKey r = rid) || hasKey rs rid) := by
      simp [hasKey, List.any_cons]
    by_cases h : hasKey rs rid
    · rw [lookupById, if_pos h, hcons, h]
      simp [ih, h]
    · have hb : hasKey rs rid = false := by simpa using h
      rw [lookupById, if_neg h, hcons, hb]
      by_cases he : rowKey r = rid <;> simp [he]

/-- A found record carries the looked-up key. -/
theorem lookupById_key (rows : List Row) (rid : PyVal) (r : Row)
    (h : lookupById rows rid = some r) : rowKey r = rid := by
  induction rows with
  | nil => simp [lookupById] at h
  | cons r0 rs ih =>
    by_cases hk : hasKey rs rid
    · simp only [lookupById, hk, if_true] at h
      exact ih h
    · simp only [lookupById, hk, if_false] at h
      by_cases he : rowKey r0 = rid
      · simp only [he, if_true] at h
        cases h
        exact he
      · simp [he] at h

/-- Lookup after appending one record. -/
theorem lookupById_append (rows : List Row) (q : Row) (rid : PyVal) :
    lookupById (rows ++ [q]) rid =
      if rowKey q = rid then some q else lookupById rows rid := by
  induction rows with
  | nil =>
    by_cases hq : rowKey q = rid <;> simp [lookupById, hasKey, hq]
  | cons r rs ih =>
    rw [List.cons_append, lookupById]
    by_cases hq : rowKey q = rid
    · have hk : hasKey (rs ++ [q]) rid = true := by
        simp [hasKey, List.any_append, hq]
      rw [hk, if_pos rfl, ih, if_pos hq, if_pos hq]
    · have hk : hasKey (rs ++ [q]) rid = hasKey rs rid := by
        simp [hasKey, List.any_append, hq]
      rw [hk, if_neg hq, lookupById, ih, if_neg hq]

/-- Replacing a record with one of the same key preserves the key list. -/
theorem updateById_map_rowKey (rows : List Row) (rid : PyVal) (q : Row)
    (hq : rowKey q = rid) : (updateById rows rid q).map rowKey = rows.map rowKey := by
  induction rows with
  | nil => simp [updateById]
  | cons r rs ih =>
    by_cases hk : hasKey rs rid
    · simp [updateById, hk, ih]
    · by_cases he : rowKey r = rid
      · simp [updateById, hk, he, hq]
      · simp [updateById, hk, he]

/-- `hasKey` is unchanged by a key-preserving update. -/
theorem updateById_hasKey (rows : List Row) (rid : PyVal) (q : Row) (rid' : PyVal)
    (hq : rowKey q = rid) :
    hasKey (updateById rows rid q) rid' = hasKey rows rid' := by
  rw [hasKey_eq_map, hasKey_eq_map, updateById_map_rowKey rows rid q hq]

/-- After a key-preserving update, looking up the key finds the new record
(provided the key was present). -/
theorem lookupById_updateById_self (rows : List Row) (rid : PyVal) (q : Row)
    (hq : rowKey q = rid) (h : hasKey rows rid = true) :
    lookupById (updateById rows rid q) rid = some q := by
  induction rows with
  | nil => simp [hasKey] at h
  | cons r rs ih =>
    by_cases hk : hasKey rs rid
    · simp only [updateById, hk, if_true, lookupById,
        updateById_hasKey rs rid q rid hq, ih hk, if_true]
    · have he : rowKey r = rid := by
        simp only [hasKey, List.any_cons, Bool.or_eq_true] at h
        rcases h with h | h
        · simpa using h
        · exact absurd h (by simpa [hasKey] using hk)
      simp only [updateById, hk, if_false, he, if_true, lookupById, hq, ite_true]
      simp

/-- A key-preserving update does not disturb lookups of other keys. -/
theorem lookupById_updateById_other (rows : List Row) (rid : PyVal) (q : Row)
    (rid' : PyVal) (hq : rowKey q = rid) (hne : rid' ≠ rid) :
    lookupById (updateById rows rid q) rid' = lookupById rows rid' := by
  induction rows with
  | nil => simp [updateById]
  | cons r rs ih =>
    by_cases hk : hasKey rs rid
    · simp only [updateById, hk, if_true, lookupById, updateById_hasKey rs rid q rid' hq, ih]
    · by_cases he : rowKey r = rid
      · simp only [updateById, hk, if_false, he, if_true, lookupById]
        have h1 : ¬ rowKey q = rid' := by rw [hq]; exact fun h => hne h.symm
        have h2 : ¬ rowKey r = rid' := by rw [he]; exact fun h => hne h.symm
        have h3 : ¬ rid = rid' := fun h => hne h.symm
        simp [h1, h2, h3]
      · simp [updateById, hk, he]

/-- Replacing the found record by itself is the identity. -/
theorem updateById_lookup_id (rows : List Row) (rid : PyVal) (r : Row)
    (h : lookupById rows rid = some r) : updateById rows rid r = rows := by
  induction rows with
  | nil => simp [lookupById] at h
  | cons r0 rs ih =>
    by_cases hk : hasKey rs rid
    · simp only [lookupById, hk, if_true] at h
      simp [updateById, hk, ih h]
    · simp only [lookupById, hk, if_false] at h
      by_cases he : rowKey r0 = rid
      · simp only [he, if_true] at h
        cases h
        simp [updateById, hk, he]
      · simp [he] at h

/-! ## Helper lemmas about the merge loop -/

/-- A truthy value is not `None`. -/
theorem pyTruthy_ne_none (v : PyVal) (h : pyTruthy v = true) : v ≠ PyVal.none := by
  intro he
  rw [he] at h
  simp [pyTruthy] at h

/-- The only truthy value in `(None, "", "null")` is the string `"null"`. -/
theorem soldBad_truthy_null (v : PyVal) (hb : soldBadO (some v) = true)
    (ht : pyTruthy v = true) : v = PyVal.str "null" := by
  cases v with
  | none => simp [pyTruthy] at ht
  | int n => simp [soldBadO] at hb
  | str s =>
    by_cases he : s = ""
    · simp [pyTruthy, he] at ht
    · by_cases hn : s = "null"
      · rw [hn]
      · simp [soldBadO, he, hn] at hb

/-- An appended payload record has all seven keys. -/
theorem payloadToRow_allPresent (p : Payload) : allPresent (payloadToRow p) = true := rfl

/-- A present optional value is not absent. -/
theorem isSome_isNone_false (o : Option PyVal) (h : o.isSome = true) : o.isNone = false := by
  cases o <;> simp_all

/-- On an all-present record the sold-date key is there. -/
theorem allPresent_sold_date (r : Row) (h : allPresent r = true) :
    r.sold_date.isNone = false := by
  simp only [allPresent, Bool.and_eq_true] at h
  exact isSome_isNone_false _ h.1.2

/-- A record found under a truthy key stores that key in its `row_id` field. -/
theorem lookup_row_id (rows : List Row) (rid : PyVal) (r : Row)
    (h : lookupById rows rid = some r) (ht : pyTruthy rid = true) :
    r.row_id = some rid := by
  have hk := lookupById_key rows rid r h
  cases hr : r.row_id with
  | none =>
    rw [rowKey, hr, Option.getD_none] at hk
    rw [← hk] at ht
    simp [pyTruthy] at ht
  | some v =>
    rw [rowKey, hr, Option.getD_some] at hk
    rw [hk]

/-- A successful lookup means the key is present. -/
theorem lookup_some_hasKey (rows : List Row) (rid : PyVal) (r : Row)
    (h : lookupById rows rid = some r) : hasKey rows rid = true := by
  cases hb : hasKey rows rid
  · rw [(lookupById_eq_none rows rid).mpr hb] at h
    cases h
  · rfl

/-- One merge step for a listing with no `"null"` candidate keeps `goodRow`
for every other listing. -/
theorem mergeStep_preserves_good (base : String) (st : List Row × Nat × Nat) (lot L : Lot)
    (hnn : (mkPayload base lot).sold_date ≠ PyVal.str "null")
    (hg : goodRow base st.1 L) : goodRow base (mergeStep base st lot).1 L := by
  obtain ⟨r, hfind, hap, hclause⟩ := hg
  by_cases hT : pyTruthy lot.row_id = false
  · rw [mergeStep, if_pos hT]
    exact ⟨r, hfind, hap, hclause⟩
  · have hT' : pyTruthy lot.row_id = true := by simpa using hT
    rw [mergeStep, if_neg hT]
    cases hlk : lookupById st.1 lot.row_id with
    | none =>
      simp only [hlk]
      have hrk : rowKey (payloadToRow (mkPayload base lot)) = lot.row_id := by
        simp [rowKey, payloadToRow, mkPayload]
      by_cases heq : lot.row_id = L.row_id
      · rw [heq] at hlk
        rw [hlk] at hfind
        cases hfind
      · refine ⟨r, ?_, hap, hclause⟩
        rw [lookupById_append, hrk, if_neg heq]
        exact hfind
    | some row =>
      simp only [hlk]
      have hrow_id : row.row_id = some lot.row_id := lookup_row_id _ _ _ hlk hT'
      have hrk : rowKey (upsertRow row (mkPayload base lot)).1 = lot.row_id := by
        rw [rowKey, (upsertRow_preserves row (mkPayload base lot)).1 (by rw [hrow_id]; rfl),
          hrow_id, Option.getD_some]
      by_cases heq : L.row_id = lot.row_id
      · have hr_eq : r = row := by
          rw [heq] at hfind
          rw [hfind] at hlk
          cases hlk
          rfl
        refine ⟨(upsertRow row (mkPayload base lot)).1, ?_, upsertRow_allPresent row _, ?_⟩
        · rw [heq]
          exact lookupById_updateById_self st.1 lot.row_id _ hrk
            (lookup_some_hasKey _ _ _ hlk)
        · intro hbad
          rw [upsertRow_sold_date] at hbad
          by_cases hc : (row.sold_date.isNone ||
              (soldBadO row.sold_date && pyTruthy (mkPayload base lot).sold_date)) = true
          · rw [if_pos hc] at hbad
            by_cases htr : pyTruthy (mkPayload base lot).sold_date = true
            · exact absurd (soldBad_truthy_null _ hbad htr) hnn
            · -- candidate falsy: the write condition then forces the stored
              -- key absent, impossible on an all-present record
              have htr' : pyTruthy (mkPayload base lot).sold_date = false := by simpa using htr
              rw [htr', Bool.and_false, Bool.or_false] at hc
              rw [allPresent_sold_date row (by rw [hr_eq] at hap; exact hap)] at hc
              cases hc
          · rw [if_neg hc] at hbad
            rw [← hr_eq] at hbad
            exact hclause hbad
      · refine ⟨r, ?_, hap, hclause⟩
        rw [lookupById_updateById_other st.1 lot.row_id _ L.row_id hrk heq]
        exact hfind

/-- One merge step for a listing with a truthy id and no `"null"` candidate
establishes `goodRow` for that listing. -/
theorem mergeStep_establishes_good (base : String) (st : List Row × Nat × Nat) (lot : Lot)
    (hnn : (mkPayload base lot).sold_date ≠ PyVal.str "null")
    (hT : pyTruthy lot.row_id = true) :
    goodRow base (mergeStep base st lot).1 lot := by
  have hT0 : ¬ pyTruthy lot.row_id = false := by simp [hT]
  rw [mergeStep, if_neg hT0]
  cases hlk : lookupById st.1 lot.row_id with
  | none =>
    simp only [hlk]
    have hrk : rowKey (payloadToRow (mkPayload base lot)) = lot.row_id := by
      simp [rowKey, payloadToRow, mkPayload]
    refine ⟨payloadToRow (mkPayload base lot), ?_, payloadToRow_allPresent _, ?_⟩
    · rw [lookupById_append, hrk, if_pos rfl]
    · intro hbad
      by_cases htr : pyTruthy (mkPayload base lot).sold_date = true
      · exact absurd (soldBad_truthy_null _ hbad htr) hnn
      · simpa using htr
  | some row =>
    simp only [hlk]
    have hrow_id : row.row_id = some lot.row_id := lookup_row_id _ _ _ hlk hT
    have hrk : rowKey (upsertRow row (mkPayload base lot)).1 = lot.row_id := by
      rw [rowKey, (upsertRow_preserves row (mkPayload base lot)).1 (by rw [hrow_id]; rfl),
        hrow_id, Option.getD_some]
    refine ⟨(upsertRow row (mkPayload base lot)).1, ?_, upsertRow_allPresent row _, ?_⟩
    · exact lookupById_updateById_self st.1 lot.row_id _ hrk (lookup_some_hasKey _ _ _ hlk)
    · intro hbad
      by_cases htr : pyTruthy (mkPayload base lot).sold_date = true
      · exfalso
        rw [upsertRow_sold_date] at hbad
        by_cases hc : (row.sold_date.isNone ||
            (soldBadO row.sold_date && pyTruthy (mkPayload base lot).sold_date)) = true
        · rw [if_pos hc] at hbad
          exact absurd (soldBad_truthy_null _ hbad htr) hnn
        · -- no write happened although the candidate is truthy and the
          -- stored value passes the backfill test: contradiction
          rw [if_neg hc] at hbad
          apply hc
          rw [hbad, htr]
          simp
      · simpa using htr

/-- After folding listings that never carry a `"null"` candidate, `goodRow`
holds for every processed listing with a truthy id. -/
theorem merge_fold_good (base : String) (lots : List Lot) :
    ∀ (st : List Row × Nat × Nat) (S : List Lot),
      (∀ l ∈ lots, (mkPayload base l).sold_date ≠ PyVal.str "null") →
      (∀ L ∈ S, pyTruthy L.row_id = true → goodRow base st.1 L) →
      ∀ L, (L ∈ S ∨ L ∈ lots) → pyTruthy L.row_id = true →
        goodRow base (List.foldl (mergeStep base) st lots).1 L := by
  induction lots with
  | nil =>
    intro st S _ hS L hL ht
    rcases hL with h | h
    · exact hS L h ht
    · cases h
  | cons lot rest ih =>
    intro st S hnn hS L hL ht
    rw [List.foldl_cons]
    have hnn0 : (mkPayload base lot).sold_date ≠ PyVal.str "null" :=
      hnn lot (List.mem_cons_self _ _)
    refine ih (mergeStep base st lot) (lot :: S)
      (fun l hl => hnn l (List.mem_cons_of_mem _ hl)) ?_ L ?_ ht
    · intro L' hL' htL'
      rcases List.mem_cons.mp hL' with he | hm
      · subst he
        exact mergeStep_establishes_good base st _ hnn0 htL'
      · exact mergeStep_preserves_good base st lot L' hnn0 (hS L' hm htL')
    · rcases hL with h | h
      · exact Or.inl (List.mem_cons_of_mem _ h)
      · rcases List.mem_cons.mp h with he | hm
        · exact Or.inl (by rw [he]; exact List.mem_cons_self _ _)
        · exact Or.inr hm

/-- Folding listings whose records are already `goodRow` changes nothing:
no listing is appended, no record mutated, no counter incremented. -/
theorem merge_fold_noop (base : String) (lots : List Lot) :
    ∀ (rows : List Row) (a u : Nat),
      (∀ l ∈ lots, pyTruthy l.row_id = true → goodRow base rows l) →
      List.foldl (mergeStep base) (rows, a, u) lots = (rows, a, u) := by
  induction lots with
  | nil => intro rows a u _; rfl
  | cons lot rest ih =>
    intro rows a u h
    rw [List.foldl_cons]
    have hstep : mergeStep base (rows, a, u) lot = (rows, a, u) := by
      by_cases hT : pyTruthy lot.row_id = false
      · rw [mergeStep, if_pos hT]
      · have hT' : pyTruthy lot.row_id = true := by simpa using hT
        obtain ⟨r, hr, hap, hsd⟩ := h lot (List.mem_cons_self _ _) hT'
        have hnoop : upsertRow r (mkPayload base lot) = (r, false) := by
          apply upsertRow_noop _ _ hap
          cases hb : (soldBadO r.sold_date && pyTruthy (mkPayload base lot).sold_date)
          · rfl
          · rw [Bool.and_eq_true] at hb
            rw [hsd hb.1] at hb
            exact absurd hb.2 (by simp)
        rw [mergeStep, if_neg hT]
        simp only [hr, hnoop]
        rw [updateById_lookup_id rows lot.row_id r hr]
        simp
    rw [hstep]
    exact ih rows a u (fun l hl => h l (List.mem_cons_of_mem _ hl))

/-- A key that fails `hasKey` is not among the record keys. -/
theorem hasKey_false_not_mem (rows : List Row) (rid : PyVal) (h : hasKey rows rid = false) :
    rid ∉ rows.map rowKey := by
  intro hm
  rw [hasKey_eq_map] at h
  have : (rows.map rowKey).any (fun k => decide (k = rid)) = true :=
    List.any_eq_true.mpr ⟨rid, hm, by simp⟩
  rw [h] at this
  cases this

/-- The merge fold preserves distinctness of the record keys. -/
theorem merge_fold_nodup (base : String) (lots : List Lot) :
    ∀ st : List Row × Nat × Nat, (st.1.map rowKey).Nodup →
      ((List.foldl (mergeStep base) st lots).1.map rowKey).Nodup := by
  induction lots with
  | nil => intro st h; exact h
  | cons lot rest ih =>
    intro st h
    rw [List.foldl_cons]
    apply ih
    by_cases hT : pyTruthy lot.row_id = false
    · rw [mergeStep, if_pos hT]; exact h
    · have hT' : pyTruthy lot.row_id = true := by simpa using hT
      rw [mergeStep, if_neg hT]
      cases hlk : lookupById st.1 lot.row_id with
      | some row =>
        simp only [hlk]
        have hrow_id : row.row_id = some lot.row_id := lookup_row_id _ _ _ hlk hT'
        have hrk : rowKey (upsertRow row (mkPayload base lot)).1 = lot.row_id := by
          rw [rowKey, (upsertRow_preserves row (mkPayload base lot)).1 (by rw [hrow_id]; rfl),
            hrow_id, Option.getD_some]
        show ((updateById st.1 lot.row_id (upsertRow row (mkPayload base lot)).1).map rowKey).Nodup
        rw [updateById_map_rowKey st.1 lot.row_id _ hrk]
        exact h
      | none =>
        simp only [hlk]
        have hrk : rowKey (payloadToRow (mkPayload base lot)) = lot.row_id := by
          simp [rowKey, payloadToRow, mkPayload]
        have hnm : lot.row_id ∉ st.1.map rowKey :=
          hasKey_false_not_mem _ _ ((lookupById_eq_none _ _).mp hlk)
        show ((st.1 ++ [payloadToRow (mkPayload base lot)]).map rowKey).Nodup
        rw [List.map_append, List.map_singleton, hrk, List.nodup_append]
        refine ⟨h, List.nodup_singleton _, ?_⟩
        intro x hx hx'
        rw [List.mem_singleton] at hx'
        subst hx'
        exact hnm hx

/-- The merge fold never drops a stored record with all keys present, and
never changes any of its fields other than `sold_date`. -/
theorem merge_fold_keeps_fields (base : String) (lots : List Lot) :
    ∀ (st : List Row × Nat × Nat) (rid : PyVal) (r : Row),
      lookupById st.1 rid = some r → allPresent r = true →
      ∃ r', lookupById (List.foldl (mergeStep base) st lots).1 rid = some r' ∧
        allPresent r' = true ∧
        r'.row_id = r.row_id ∧ r'.title = r.title ∧ r'.status = r.status ∧
        r'.sold_price = r.sold_price ∧ r'.url = r.url ∧
        r'.auction_title = r.auction_title := by
  induction lots with
  | nil => intro st rid r h hap; exact ⟨r, h, hap, rfl, rfl, rfl, rfl, rfl, rfl⟩
  | cons lot rest ih =>
    intro st rid r h hap
    rw [List.foldl_cons]
    have hstep : ∃ r1, lookupById (mergeStep base st lot).1 rid = some r1 ∧
        allPresent r1 = true ∧ r1.row_id = r.row_id ∧ r1.title = r.title ∧
        r1.status = r.status ∧ r1.sold_price = r.sold_price ∧ r1.url = r.url ∧
        r1.auction_title = r.auction_title := by
      by_cases hT : pyTruthy lot.row_id = false
      · rw [mergeStep, if_pos hT]; exact ⟨r, h, hap, rfl, rfl, rfl, rfl, rfl, rfl⟩
      · have hT' : pyTruthy lot.row_id = true := by simpa using hT
        rw [mergeStep, if_neg hT]
        cases hlk : lookupById st.1 lot.row_id with
        | none =>
          simp only [hlk]
          have hrk : rowKey (payloadToRow (mkPayload base lot)) = lot.row_id := by
            simp [rowKey, payloadToRow, mkPayload]
          by_cases he : lot.row_id = rid
          · rw [he] at hlk
            rw [hlk] at h
            cases h
          · refine ⟨r, ?_, hap, rfl, rfl, rfl, rfl, rfl, rfl⟩
            show lookupById (st.1 ++ [payloadToRow (mkPayload base lot)]) rid = some r
            rw [lookupById_append, hrk, if_neg he]
            exact h
        | some row =>
          simp only [hlk]
          have hrow_id : row.row_id = some lot.row_id := lookup_row_id _ _ _ hlk hT'
          have hrk : rowKey (upsertRow row (mkPayload base lot)).1 = lot.row_id := by
            rw [rowKey, (upsertRow_preserves row (mkPayload base lot)).1 (by rw [hrow_id]; rfl),
              hrow_id, Option.getD_some]
          by_cases he : rid = lot.row_id
          · have hr_eq : r = row := by
              rw [he] at h
              rw [h] at hlk
              cases hlk
              rfl
            subst hr_eq
            have hap' := hap
            simp only [allPresent, Bool.and_eq_true] at hap'
            obtain ⟨⟨⟨⟨⟨⟨q1, q2⟩, q3⟩, q4⟩, q5⟩, q6⟩, q7⟩ := hap'
            have hpres := upsertRow_preserves r (mkPayload base lot)
            refine ⟨(upsertRow r (mkPayload base lot)).1, ?_,
              upsertRow_allPresent r _, hpres.1 q1, hpres.2.1 q2, hpres.2.2.1 q3,
              hpres.2.2.2.1 q4, hpres.2.2.2.2.1 q5, hpres.2.2.2.2.2 q7⟩
            rw [he]
            exact lookupById_updateById_self st.1 lot.row_id _ hrk
              (lookup_some_hasKey _ _ _ hlk)
          · refine ⟨r, ?_, hap, rfl, rfl, rfl, rfl, rfl, rfl⟩
            show lookupById
              (updateById st.1 lot.row_id (upsertRow row (mkPayload base lot)).1) rid = some r
            rw [lookupById_updateById_other st.1 lot.row_id _ rid hrk he]
            exact h
    obtain ⟨r1, h1, hap1, e1, e2, e3, e4, e5, e6⟩ := hstep
    obtain ⟨r', h', hap', f1, f2, f3, f4, f5, f6⟩ := ih (mergeStep base st lot) rid r1 h1 hap1
    exact ⟨r', h', hap', f1.trans e1, f2.trans e2, f3.trans e3, f4.trans e4, f5.trans e5,
      f6.trans e6⟩

/-! ## Claim theorems -/

/-- C3: the merge-upsert overwrites a stored field only if that field's key
is absent from the stored record, or — for `sold_date` only — if the stored
value is absent, empty, `None`, or the literal string `"null"` and the
candidate value is non-null; in particular a stored sold date such as
`"2024-01-01"` is never overwritten by any incoming value. -/
theorem c3_overwrite_only_if (row : Row) (p : Payload) :
    (∀ f : Fld, (upsertRow row p).1.fget f ≠ row.fget f →
      row.fget f = Option.none ∨
      (f = Fld.sold_date ∧ soldBadO row.sold_date = true ∧ p.sold_date ≠ PyVal.none)) ∧
    (∀ s : String, row.sold_date = some (PyVal.str s) → ¬ s = "" → ¬ s = "null" →
      (upsertRow row p).1.sold_date = row.sold_date) := by
  constructor
  · intro f hne
    rw [upsertRow_spec] at hne
    cases f
    case row_id =>
      dsimp [Row.fget] at hne ⊢
      by_cases hx : row.row_id.isNone = true
      · exact Or.inl (Option.isNone_iff_eq_none.mp hx)
      · rw [if_neg hx] at hne
        exact absurd rfl hne
    case title =>
      dsimp [Row.fget] at hne ⊢
      by_cases hx : row.title.isNone = true
      · exact Or.inl (Option.isNone_iff_eq_none.mp hx)
      · rw [if_neg hx] at hne
        exact absurd rfl hne
    case status =>
      dsimp [Row.fget] at hne ⊢
      by_cases hx : row.status.isNone = true
      · exact Or.inl (Option.isNone_iff_eq_none.mp hx)
      · rw [if_neg hx] at hne
        exact absurd rfl hne
    case sold_price =>
      dsimp [Row.fget] at hne ⊢
      by_cases hx : row.sold_price.isNone = true
      · exact Or.inl (Option.isNone_iff_eq_none.mp hx)
      · rw [if_neg hx] at hne
        exact absurd rfl hne
    case url =>
      dsimp [Row.fget] at hne ⊢
      by_cases hx : row.url.isNone = true
      · exact Or.inl (Option.isNone_iff_eq_none.mp hx)
      · rw [if_neg hx] at hne
        exact absurd rfl hne
    case auction_title =>
      dsimp [Row.fget] at hne ⊢
      by_cases hx : row.auction_title.isNone = true
      · exact Or.inl (Option.isNone_iff_eq_none.mp hx)
      · rw [if_neg hx] at hne
        exact absurd rfl hne
    case sold_date =>
      dsimp [Row.fget] at hne ⊢
      by_cases hx : (row.sold_date.isNone ||
          (soldBadO row.sold_date && pyTruthy p.sold_date)) = true
      · rcases Bool.or_eq_true_iff.mp hx with h1 | h2
        · exact Or.inl (Option.isNone_iff_eq_none.mp h1)
        · obtain ⟨hb, ht⟩ := Bool.and_eq_true_iff.mp h2
          exact Or.inr ⟨rfl, hb, pyTruthy_ne_none _ ht⟩
      · rw [if_neg hx] at hne
        exact absurd rfl hne
  · intro s hsd hne1 hne2
    rw [upsertRow_sold_date, hsd]
    have hb : soldBadO (some (PyVal.str s)) = false := by
      simp [soldBadO, hne1, hne2]
    simp [hb]

/-- C3 witness: a stored sold date `"2024-01-01"` survives the upsert, and
the one field the upsert does write (`url`) had its key absent. -/
theorem c3_witness :
    ((upsertRow row3 pay3).1.sold_date = row3.sold_date) ∧
    (row3.fget Fld.url = Option.none ∨
      (Fld.url = Fld.sold_date ∧ soldBadO row3.sold_date = true ∧
        pay3.sold_date ≠ PyVal.none)) :=
  ⟨(c3_overwrite_only_if row3 pay3).2 "2024-01-01" rfl (by decide) (by decide),
   (c3_overwrite_only_if row3 pay3).1 Fld.url (by decide)⟩

/-- C4 counterexample: a listing whose candidate sold-date normalises to the
literal string `"null"` makes the second, identical run report
`updated = 1`, refuting `added=0 ∧ updated=0` on re-runs. -/
theorem c4_counterexample :
    (merge_lots "https://x" [lot4]
      (merge_lots "https://x" [lot4] []).1).2.2 = 1 := by decide

/-- C4 (amended): provided no incoming listing's computed sold-date is the
literal string `"null"`, the merge-upsert is idempotent — a second run over
the same filtered listings against the dataset produced by the first run
yields `added = 0`, `updated = 0`, and leaves every record unchanged. -/
theorem c4_idempotent_no_null (base : String) (lots : List Lot) (existing : List Row)
    (h : ∀ l ∈ lots, (mkPayload base l).sold_date ≠ PyVal.str "null") :
    merge_lots base lots (merge_lots base lots existing).1 =
      ((merge_lots base lots existing).1, 0, 0) := by
  have hg : ∀ l ∈ lots, pyTruthy l.row_id = true →
      goodRow base (merge_lots base lots existing).1 l := by
    intro l hl ht
    exact merge_fold_good base lots (existing, 0, 0) [] h
      (by intro L hL; cases hL) l (Or.inr hl) ht
  exact merge_fold_noop base lots (merge_lots base lots existing).1 0 0 hg

/-- C4 witness: the amended idempotence at a concrete listing with a
well-formed timestamp. -/
theorem c4_witness :
    merge_lots "https://w.example" [lot4w]
        (merge_lots "https://w.example" [lot4w] []).1 =
      ((merge_lots "https://w.example" [lot4w] []).1, 0, 0) :=
  c4_idempotent_no_null "https://w.example" [lot4w] [] (by decide)

/-- C6: if no two records of the initial dataset share a `row_id`, the same
holds of the dataset produced by the merge (a payload is appended only when
its `row_id` is not already indexed, and updates preserve keys). -/
theorem c6_unique_row_ids (base : String) (lots : List Lot) (existing : List Row)
    (h : (existing.map rowKey).Nodup) :
    ((merge_lots base lots existing).1.map rowKey).Nodup :=
  merge_fold_nodup base lots (existing, 0, 0) h

/-- C6 witness: uniqueness of the produced keys at a concrete merge. -/
theorem c6_witness :
    ((merge_lots "https://w.example" [lot6] []).1.map rowKey).Nodup :=
  c6_unique_row_ids "https://w.example" [lot6] [] (by decide)

/-- C10: every record first inserted by this program (an upsert payload) has
all seven canonical keys present, and across any later merge run the record
stored under a key keeps its `row_id`, `title`, `status`, `sold_price`,
`url` and `auction_title` unchanged (only `sold_date` can change), even
when the stored values are null. -/
theorem c10_frame (base : String) :
    (∀ lot : Lot, allPresent (payloadToRow (mkPayload base lot)) = true) ∧
    (∀ (lots : List Lot) (existing : List Row) (rid : PyVal) (r : Row),
      lookupById existing rid = some r → allPresent r = true →
      ∃ r', lookupById (merge_lots base lots existing).1 rid = some r' ∧
        allPresent r' = true ∧ r'.row_id = r.row_id ∧ r'.title = r.title ∧
        r'.status = r.status ∧ r'.sold_price = r.sold_price ∧ r'.url = r.url ∧
        r'.auction_title = r.auction_title) :=
  ⟨fun _ => payloadToRow_allPresent _,
   fun lots existing rid r h hap =>
     merge_fold_keeps_fields base lots (existing, 0, 0) rid r h hap⟩

/-- C10 witness: a concrete merge fills `row10`'s sold date but leaves its
six other fields untouched. -/
theorem c10_witness :
    ∃ r', lookupById (merge_lots "https://w.example" [lot10] [row10]).1
        (PyVal.str "k10") = some r' ∧
      allPresent r' = true ∧ r'.row_id = row10.row_id ∧ r'.title = row10.title ∧
      r'.status = row10.status ∧ r'.sold_price = row10.sold_price ∧
      r'.url = row10.url ∧ r'.auction_title = row10.auction_title :=
  (c10_frame "https://w.example").2 [lot10] [row10] (PyVal.str "k10") row10
    (by decide) (by decide)

/-- Closed form of the `got_any`/`extend` fold over a window's results. -/
theorem processWindow_gen (results : List (List Lot)) :
    ∀ (b : Bool) (acc : List Lot),
      results.foldl extendNonEmpty (b, acc) =
        (b || results.any (fun l => !l.isEmpty), acc ++ results.flatten) := by
  induction results with
  | nil => intro b acc; simp
  | cons l ls ih =>
    intro b acc
    rw [List.foldl_cons]
    cases l with
    | nil =>
      rw [extendNonEmpty]
      simp [ih]
    | cons x xs =>
      rw [extendNonEmpty]
      simp [ih]

/-- A window is all-empty exactly when no page of it is non-empty. -/
theorem window_empty_iff (pages : Nat → List Lot) (page : Nat) :
    ((fetchWindow pages page).any (fun l => !l.isEmpty) = false) ↔
      (∀ i, i < CONCURRENCY → pages (page + i) = []) := by
  constructor
  · intro h i hi
    cases hpp : pages (page + i) with
    | nil => rfl
    | cons x xs =>
      exfalso
      have : (fetchWindow pages page).any (fun l => !l.isEmpty) = true := by
        apply List.any_eq_true.mpr
        refine ⟨pages (page + i), ?_, ?_⟩
        · exact List.mem_map.mpr ⟨i, List.mem_range.mpr hi, rfl⟩
        · rw [hpp]
          rfl
      rw [h] at this
      cases this
  · intro h
    cases hb : (fetchWindow pages page).any (fun l => !l.isEmpty) with
    | false => rfl
    | true =>
      exfalso
      obtain ⟨l, hl, hne⟩ := List.any_eq_true.mp hb
      obtain ⟨i, hi, he⟩ := List.mem_map.mp hl
      rw [← he, h i (List.mem_range.mp hi)] at hne
      cases hne

/-- C5: the crawl loop stops at a window exactly when every one of the
`CONCURRENCY` (10) pages of the window returns zero listings; otherwise the
window's page results are appended to the accumulator in page order (their
concatenation) and the cursor advances by `CONCURRENCY`, so a single
non-empty page anywhere in the window prevents termination there. -/
theorem c5_windowed_termination (pages : Nat → List Lot) (fuel page : Nat) (acc : List Lot) :
    ((∀ i, i < CONCURRENCY → pages (page + i) = []) →
      fetch_all_lots pages (fuel + 1) page acc = some acc) ∧
    ((∃ i, i < CONCURRENCY ∧ pages (page + i) ≠ []) →
      fetch_all_lots pages (fuel + 1) page acc =
        fetch_all_lots pages fuel (page + CONCURRENCY)
          (acc ++ (fetchWindow pages page).flatten)) := by
  have hpw : processWindow acc (fetchWindow pages page) =
      ((fetchWindow pages page).any (fun l => !l.isEmpty),
        acc ++ (fetchWindow pages page).flatten) := by
    rw [processWindow, processWindow_gen]
    simp
  constructor
  · intro h
    have hany : (fetchWindow pages page).any (fun l => !l.isEmpty) = false :=
      (window_empty_iff pages page).mpr h
    have hfl : (fetchWindow pages page).flatten = [] := by
      apply List.flatten_eq_nil_iff.mpr
      intro l hl
      obtain ⟨i, hi, he⟩ := List.mem_map.mp hl
      rw [← he]
      exact h i (List.mem_range.mp hi)
    rw [fetch_all_lots, hpw, hany, hfl]
    simp
  · intro ⟨i, hi, hne⟩
    have hany : (fetchWindow pages page).any (fun l => !l.isEmpty) = true := by
      apply List.any_eq_true.mpr
      refine ⟨pages (page + i), List.mem_map.mpr ⟨i, List.mem_range.mpr hi, rfl⟩, ?_⟩
      cases hpp : pages (page + i) with
      | nil => exact absurd hpp hne
      | cons x xs => rfl
    rw [fetch_all_lots, hpw, hany]
    simp

/-- C5 witness: with only page 3 non-empty, the crawl does not stop at the
first window; it appends the window's results and advances the cursor. -/
theorem c5_witness :
    fetch_all_lots pages5 2 1 [] =
      fetch_all_lots pages5 1 (1 + CONCURRENCY)
        ([] ++ (fetchWindow pages5 1).flatten) :=
  (c5_windowed_termination pages5 1 1 []).2 ⟨2, by decide, by decide⟩

/-- C7: if the crawl of a source raises, `scrape_and_merge` leaves the file
system (hence that source's dataset file) entirely untouched and propagates
the error — the file write happens only after crawl, filter, and merge have
completed. -/
theorem c7_abort_leaves_file_untouched (crawl : String → Except PyErr (List Lot))
    (base outfile : String) (fs : FS) (e : PyErr)
    (h : crawl base = Except.error e) :
    scrape_and_merge crawl base outfile fs = (fs, Except.error e) := by
  simp only [scrape_and_merge, h]

/-- C7 witness: a failing crawl at a concrete source and file system. -/
theorem c7_witness :
    scrape_and_merge crawl7 "https://w.example" "w.example_lots.json" [] =
      ([], Except.error PyErr.connectionError) :=
  c7_abort_leaves_file_untouched crawl7 "https://w.example" "w.example_lots.json" []
    PyErr.connectionError rfl

/-- C1 counterexample: with the first of two sources failing, the
orchestration loop never attempts the second source, refuting per-source
isolation as claimed. -/
theorem c1_counterexample :
    (main_loop crawl1 ["https://a.example", "https://b.example"] []).2.1 =
      ["https://a.example"] ∧
    "https://b.example" ∉
      (main_loop crawl1 ["https://a.example", "https://b.example"] []).2.1 := by
  constructor
  · rfl
  · decide

/-- C1 (amended): the sources before a failing source are processed, but a
source whose crawl raises aborts the whole orchestration: the failing
source's iteration is entered and no source after it is attempted, and the
exception escapes the loop. -/
theorem c1_abort_stops_loop (crawl : String → Except PyErr (List Lot))
    (bs1 : List String) (b : String) (bs2 : List String) (fs : FS) (e : PyErr)
    (h1 : ∀ a ∈ bs1, sourceOk crawl a) (hb : crawl b = Except.error e) :
    (main_loop crawl (bs1 ++ b :: bs2) fs).2.1 = bs1 ++ [b] ∧
    (main_loop crawl (bs1 ++ b :: bs2) fs).2.2.isSome = true := by
  induction bs1 generalizing fs with
  | nil =>
    rw [List.nil_append]
    cases hd : derive_outfile b with
    | error e' =>
      simp only [main_loop, hd]
      exact ⟨rfl, rfl⟩
    | ok outfile =>
      have hsm : scrape_and_merge crawl b outfile fs = (fs, Except.error e) := by
        simp only [scrape_and_merge, hb]
      simp only [main_loop, hd, hsm]
      exact ⟨rfl, rfl⟩
  | cons a as ih =>
    obtain ⟨⟨o, ho⟩, ⟨ls, hls⟩⟩ := h1 a (List.mem_cons_self _ _)
    rw [List.cons_append]
    simp only [main_loop, ho]
    rcases hsm : scrape_and_merge crawl a o fs with ⟨fs', e' | stats⟩
    · simp only [scrape_and_merge, hls] at hsm
      exact absurd (congrArg Prod.snd hsm) (by simp)
    · have ihr := ih fs' (fun x hx => h1 x (List.mem_cons_of_mem _ hx))
      constructor
      · show a :: (main_loop crawl (as ++ b :: bs2) fs').2.1 = (a :: as) ++ [b]
        rw [List.cons_append, ihr.1]
      · exact ihr.2

/-- C1 witness: the amended statement at a concrete three-source list whose
middle source fails. -/
theorem c1_witness :
    (main_loop crawl1w
        ["https://ok.example", "https://bad.example", "https://after.example"] []).2.1 =
      ["https://ok.example", "https://bad.example"] ∧
    (main_loop crawl1w
        ["https://ok.example", "https://bad.example", "https://after.example"] []).2.2.isSome
      = true :=
  c1_abort_stops_loop crawl1w ["https://ok.example"] "https://bad.example"
    ["https://after.example"] [] PyErr.connectionError
    (by
      intro a ha
      rw [List.mem_singleton] at ha
      subst ha
      exact ⟨⟨"ok.example_lots.json", rfl⟩, ⟨[], rfl⟩⟩)
    rfl

/-- C2: the spec says a malformed date portion yields null, but the code's
fallback returns the before-`'T'` substring without validating it, so the
malformed input `"not-a-date"` comes back unchanged instead of null. -/
theorem c2_malformed_returns_input :
    iso_to_date_str_ex (PyVal.str "not-a-date") = Except.ok (some "not-a-date") ∧
    iso_to_date_str (PyVal.str "not-a-date") = some "not-a-date" :=
  ⟨by decide, by decide⟩

/-- C9: `iso_to_date_str` never raises — every input produces a normal
return — but not every failure path degrades to null: full-parse failure on
`"garbage"` returns the non-null, non-date string `"garbage"` through the
unvalidated substring fallback. -/
theorem c9_never_raises_but_fallback :
    (∀ v : PyVal, ∃ r, iso_to_date_str_ex v = Except.ok r) ∧
    iso_to_date_str_ex (PyVal.str "garbage") = Except.ok (some "garbage") :=
  ⟨iso_to_date_str_ex_ok, by decide⟩

/-- C8 counterexample: `"0001-01-01T00:00:00+01:00"` is parseable and
carries an offset, yet its UTC conversion overflows the representable
`datetime` range, and the function returns the naive (unconverted) date
portion `"0001-01-01"` — so not every parseable offset timestamp is
converted to UTC before truncation. -/
theorem c8_counterexample :
    fromisoformatE (replaceZ (pyStrip "0001-01-01T00:00:00+01:00")) =
      Except.ok ⟨1, 1, 1, 0, 0, 0, some 3600⟩ ∧
    utcDateE ⟨1, 1, 1, 0, 0, 0, some 3600⟩ = Except.error PyErr.overflowError ∧
    iso_to_date_str_ex (PyVal.str "0001-01-01T00:00:00+01:00") =
      Except.ok (some "0001-01-01") :=
  ⟨by decide, by decide, by decide⟩

/-- C8 (amended): for every nonempty string whose `Z`-normalised, stripped
form parses, a timestamp carrying an offset is converted to UTC before
truncating to the date — whenever that conversion stays within the
representable range — and a timestamp without an offset is taken as already
UTC; e.g. `"2024-03-01T14:30:00Z"` yields `"2024-03-01"` (see the witness,
which also exercises a midnight-crossing conversion). -/
theorem c8_utc_conversion (s : String) (dt : PyDateTime)
    (hs : ¬ s = "") (hp : fromisoformatE (replaceZ (pyStrip s)) = Except.ok dt) :
    (∀ (o : Int) (y m d : Nat), dt.off = some o → utcDateE dt = Except.ok (y, m, d) →
      iso_to_date_str_ex (PyVal.str s) = Except.ok (some (fmtDate y m d))) ∧
    (dt.off = Option.none →
      iso_to_date_str_ex (PyVal.str s) =
        Except.ok (some (fmtDate dt.year dt.month dt.day))) := by
  constructor
  · intro o y m d _ hutc
    simp only [iso_to_date_str_ex, if_neg hs, hp, utcDateStrE, hutc]
  · intro hoff
    have hutc : utcDateE dt = Except.ok (dt.year, dt.month, dt.day) := by
      simp only [utcDateE, hoff]
    simp only [iso_to_date_str_ex, if_neg hs, hp, utcDateStrE, hutc]

/-- C8 witness: the amended theorem applied at the spec's example
`"2024-03-01T14:30:00Z"` and at `"2024-03-05T01:30:00+02:00"`, whose UTC
conversion crosses midnight back to `"2024-03-04"`. -/
theorem c8_witness :
    iso_to_date_str_ex (PyVal.str "2024-03-01T14:30:00Z") =
      Except.ok (some "2024-03-01") ∧
    iso_to_date_str_ex (PyVal.str "2024-03-05T01:30:00+02:00") =
      Except.ok (some "2024-03-04") :=
  ⟨(c8_utc_conversion "2024-03-01T14:30:00Z" ⟨2024, 3, 1, 14, 30, 0, some 0⟩
      (by decide) (by decide)).1 0 2024 3 1 rfl (by decide),
   (c8_utc_conversion "2024-03-05T01:30:00+02:00" ⟨2024, 3, 5, 1, 30, 0, some 7200⟩
      (by decide) (by decide)).1 7200 2024 3 4 rfl (by decide)⟩

end AuctionScraper
